import Mathlib

/-!
Verification of the NBA-API data-getter collection loop (src/get_data.py).

The program is a single sequential loop: for each roster player not yet in
the SQLite store, fetch career rows with a retrying request policy, write
them through an insert-or-replace upsert, log failures, and pace itself with
jitter sleeps and periodic batch cooldowns.

We embed the code shallowly:
* the `player_stats` table is a list of `StatRecord`s with insert-or-replace
  semantics keyed on (player_id, season_id), mirroring the PRIMARY KEY and
  the INSERT OR REPLACE statement of `setup_database` / `save_player_data`;
* raw upstream rows are positional lists; `rowToRecord` performs the
  positional mapping of `save_player_data` (positions 1, 3..26; positions 0
  and 2 are never read);
* the inner retry `while` of `collect_all_stats` becomes `attemptLoop`,
  driven by an oracle giving each attempt's outcome and by oracles for the
  two random draws (the timeout multiplier and the backoff jitter); it emits
  a trace of observable events (fetches, log appends, sleeps);
* the outer `for` loop becomes `collect_all_stats`, which threads the store
  and returns one event chunk per roster index.
-/

namespace GetData

/-- MAX_RETRIES = 3 in the CONFIG block of collect_all_stats. -/
def MAX_RETRIES : Nat := 3

/-- INITIAL_TIMEOUT = 20 (seconds). -/
def INITIAL_TIMEOUT : ℚ := 20

/-- BACKOFF_FACTOR = 2. -/
def BACKOFF_FACTOR : ℚ := 2

/-- BATCH_SIZE = 500 players per batch. -/
def BATCH_SIZE : Nat := 500

/-- COOLDOWN_TIME = 60 seconds after each batch. -/
def COOLDOWN_TIME : Nat := 60

/-- One row of the `player_stats` table: the 27 columns created by
`setup_database`. `player_id` and `player_name` come from the roster record;
the remaining 25 columns are raw upstream cell values of type `α`. -/
structure StatRecord (α : Type) where
  player_id : Nat
  player_name : String
  season_id : α
  team_id : α
  team_abbreviation : α
  league_id : α
  gp : α
  gs : α
  min : α
  fgm : α
  fga : α
  fg_pct : α
  fg3m : α
  fg3a : α
  fg3_pct : α
  ftm : α
  fta : α
  ft_pct : α
  oreb : α
  dreb : α
  reb : α
  ast : α
  stl : α
  blk : α
  tov : α
  pf : α
  pts : α
deriving DecidableEq

/-- The `player_stats` table, as the multiset (list) of its rows. -/
abbrev DB (α : Type) := List (StatRecord α)

/-- The positional mapping of save_player_data: season_id = row[1],
team_id = row[3], ..., pts = row[26]. Positions 0 and 2 are not read. -/
def rowToRecord {α : Type} [Inhabited α] (player_id : Nat) (player_name : String)
    (row : List α) : StatRecord α where
  player_id := player_id
  player_name := player_name
  season_id := row.getD 1 default
  team_id := row.getD 3 default
  team_abbreviation := row.getD 4 default
  league_id := row.getD 5 default
  gp := row.getD 6 default
  gs := row.getD 7 default
  min := row.getD 8 default
  fgm := row.getD 9 default
  fga := row.getD 10 default
  fg_pct := row.getD 11 default
  fg3m := row.getD 12 default
  fg3a := row.getD 13 default
  fg3_pct := row.getD 14 default
  ftm := row.getD 15 default
  fta := row.getD 16 default
  ft_pct := row.getD 17 default
  oreb := row.getD 18 default
  dreb := row.getD 19 default
  reb := row.getD 20 default
  ast := row.getD 21 default
  stl := row.getD 22 default
  blk := row.getD 23 default
  tov := row.getD 24 default
  pf := row.getD 25 default
  pts := row.getD 26 default

/-- INSERT OR REPLACE into a table whose PRIMARY KEY is
(player_id, season_id): any existing row with the same key is deleted and
the new row inserted. -/
def insertOrReplace {α : Type} [DecidableEq α] (db : DB α) (r : StatRecord α) :
    DB α :=
  r :: db.filter (fun s =>
    !(decide (s.player_id = r.player_id ∧ s.season_id = r.season_id)))

/-- save_player_data: for each raw row, if its width is not 27 it is dropped
(with a printed warning); otherwise it is upserted with the caller's
player_id and player_name. -/
def save_player_data {α : Type} [DecidableEq α] [Inhabited α] (db : DB α)
    (player_id : Nat) (player_name : String) (rows : List (List α)) : DB α :=
  rows.foldl
    (fun d row =>
      if row.length = 27 then insertOrReplace d (rowToRecord player_id player_name row)
      else d)
    db

/-- player_exists: SELECT 1 FROM player_stats WHERE player_id = ? LIMIT 1;
true iff at least one stored row has this player_id. -/
def player_exists {α : Type} (db : DB α) (player_id : Nat) : Bool :=
  db.any (fun r => r.player_id == player_id)

/-- Classification attached to an error-log line by the three except
branches of collect_all_stats. -/
inductive ErrKind where
  | transientExhausted
  | http
  | other
deriving DecidableEq

/-- Observable events of one run: API fetch attempts (with the attempt index
and the computed timeout), appends to the error log and the skipped-players
log, the backoff sleep between retries, the polite per-player jitter sleep,
and the batch cooldown (with its duration in seconds). -/
inductive Event where
  | fetch (pid : Nat) (attempt : Nat) (timeout : ℚ)
  | errorLog (pid : Nat) (name : String) (kind : ErrKind)
  | skippedLog (pid : Nat) (name : String)
  | sleepBackoff (secs : ℚ)
  | sleepJitter
  | cooldown (secs : Nat)
deriving DecidableEq

/-- Is this event an API fetch attempt? -/
def Event.isFetch : Event → Bool
  | .fetch _ _ _ => true
  | _ => false

/-- Is this event a fetch attempt for the given player id? -/
def Event.isFetchFor (pid : Nat) : Event → Bool
  | .fetch q _ _ => q == pid
  | _ => false

/-- Is this event an append to the error log? -/
def Event.isErrorLog : Event → Bool
  | .errorLog _ _ _ => true
  | _ => false

/-- Is this event an append to the skipped-players log? -/
def Event.isSkippedLog : Event → Bool
  | .skippedLog _ _ => true
  | _ => false

/-- Is this event a batch cooldown? -/
def Event.isCooldown : Event → Bool
  | .cooldown _ => true
  | _ => false

/-- Outcome of one fetch attempt, as distinguished by the except branches:
a successful response carrying raw rows, a Timeout / ReadTimeout /
ConnectionError, an HTTPError, or any other exception. -/
inductive FetchOutcome (α : Type) where
  | ok (rows : List (List α))
  | transient
  | httpError
  | otherError

/-- Result of the per-player retry loop: the store afterwards, the emitted
events, and the final value of the `success` flag. -/
structure PResult (α : Type) where
  db : DB α
  events : List Event
  success : Bool

/-- The inner `while retries <= MAX_RETRIES and not success` loop of
collect_all_stats, for one player.

`oracle n` is the outcome of attempt number `n`; `mult n` is the value drawn
by np.random.uniform(0.9, 1.1) on attempt `n`; `jit n` is the JITTER_DELAY()
draw used for the backoff wait when `retries` has just become `n`.

The first argument is the number of loop iterations the guard still allows,
`MAX_RETRIES + 1 - retries`; the guard value 0 corresponds to
`retries > MAX_RETRIES`, where the while condition fails with nothing done. -/
def attemptLoop {α : Type} [DecidableEq α] [Inhabited α]
    (oracle : Nat → FetchOutcome α) (mult : Nat → ℚ) (jit : Nat → ℚ)
    (db : DB α) (pid : Nat) (name : String) :
    Nat → Nat → PResult α
  | 0, _ => ⟨db, [], false⟩
  | rem + 1, retries =>
    let current_timeout := INITIAL_TIMEOUT * BACKOFF_FACTOR ^ retries * mult retries
    let fe := Event.fetch pid retries current_timeout
    match oracle retries with
    | .ok rows =>
      if rows.isEmpty then ⟨db, [fe], true⟩
      else ⟨save_player_data db pid name rows, [fe], true⟩
    | .transient =>
      if retries + 1 > MAX_RETRIES then
        ⟨db, [fe, .errorLog pid name .transientExhausted, .skippedLog pid name], false⟩
      else
        let r := attemptLoop oracle mult jit db pid name rem (retries + 1)
        ⟨r.db,
          fe :: .sleepBackoff (jit (retries + 1) * BACKOFF_FACTOR ^ (retries + 1)) :: r.events,
          r.success⟩
    | .httpError =>
      ⟨db, [fe, .errorLog pid name .http, .skippedLog pid name], false⟩
    | .otherError =>
      ⟨db, [fe, .errorLog pid name .other, .skippedLog pid name], false⟩

/-- One player's whole fetch-with-retry episode: the retry loop entered with
retries = 0, success = False. -/
def processPlayer {α : Type} [DecidableEq α] [Inhabited α]
    (oracle : Nat → FetchOutcome α) (mult : Nat → ℚ) (jit : Nat → ℚ)
    (db : DB α) (pid : Nat) (name : String) : PResult α :=
  attemptLoop oracle mult jit db pid name (MAX_RETRIES + 1) 0

/-- A roster record from players.get_players(). -/
structure Player where
  id : Nat
  full_name : String
deriving DecidableEq

/-- The outer `for idx, player in enumerate(all_players)` loop of
collect_all_stats, started at roster index `idx` with store `db`.

Returns the final store and one event chunk per roster index. A player
already in the store is skipped by `continue` (empty chunk: no fetch, no
jitter sleep, no cooldown check). Otherwise the chunk is the retry episode's
events, the polite jitter sleep, and, when (idx+1) is a multiple of
BATCH_SIZE, the batch cooldown. -/
def collect_all_stats {α : Type} [DecidableEq α] [Inhabited α]
    (oracle : Nat → Nat → FetchOutcome α) (mult : Nat → Nat → ℚ)
    (jit : Nat → Nat → ℚ) (idx : Nat) (db : DB α) :
    List Player → DB α × List (List Event)
  | [] => (db, [])
  | p :: rest =>
    if player_exists db p.id then
      let r := collect_all_stats oracle mult jit (idx + 1) db rest
      (r.1, [] :: r.2)
    else
      let pr := processPlayer (oracle idx) (mult idx) (jit idx) db p.id p.full_name
      let chunk := pr.events ++ [Event.sleepJitter] ++
        (if (idx + 1) % BATCH_SIZE = 0 then [Event.cooldown COOLDOWN_TIME] else [])
      let r := collect_all_stats oracle mult jit (idx + 1) pr.db rest
      (r.1, chunk :: r.2)

/-- The (player_id, season_id) primary-key column of the table. -/
def dbKeys {α : Type} (db : DB α) : List (Nat × α) :=
  db.map (fun r => (r.player_id, r.season_id))

/-- Number of cooldown events in an event list. -/
def countCooldown (l : List Event) : Nat := l.countP Event.isCooldown


/-- C1: a player whose fetch raises a transient network-class failure
(Timeout, ReadTimeout or ConnectionError) on every attempt up to and
including attempt MAX_RETRIES — more than MAX_RETRIES = 3 consecutive failing
attempts — ends with exactly one error-log append, exactly one
skipped-players-log append, and no stat row written to the store. -/
theorem transient_exhaustion_single_logs {α : Type} [DecidableEq α] [Inhabited α]
    (oracle : Nat → FetchOutcome α) (mult jit : Nat → ℚ) (db : DB α)
    (pid : Nat) (name : String)
    (h : ∀ n, n ≤ MAX_RETRIES → oracle n = .transient) :
    (processPlayer oracle mult jit db pid name).db = db ∧
    (processPlayer oracle mult jit db pid name).events.countP Event.isErrorLog = 1 ∧
    (processPlayer oracle mult jit db pid name).events.countP Event.isSkippedLog = 1 := by
  have h0 := h 0 (by norm_num [MAX_RETRIES])
  have h1 := h 1 (by norm_num [MAX_RETRIES])
  have h2 := h 2 (by norm_num [MAX_RETRIES])
  have h3 := h 3 (by norm_num [MAX_RETRIES])
  simp [processPlayer, attemptLoop, h0, h1, h2, h3, MAX_RETRIES,
    Event.isErrorLog, Event.isSkippedLog, List.countP_cons]

/-- C2: a player whose fetch raises an HTTP-class error is never retried:
the episode is exactly one fetch attempt followed by one error-log append
with the HTTP classification and one skipped-log append, and the store is
unchanged. -/
theorem http_error_single_attempt {α : Type} [DecidableEq α] [Inhabited α]
    (oracle : Nat → FetchOutcome α) (mult jit : Nat → ℚ) (db : DB α)
    (pid : Nat) (name : String)
    (h : oracle 0 = .httpError) :
    (processPlayer oracle mult jit db pid name).events =
      [Event.fetch pid 0 (INITIAL_TIMEOUT * BACKOFF_FACTOR ^ 0 * mult 0),
       Event.errorLog pid name ErrKind.http,
       Event.skippedLog pid name] ∧
    (processPlayer oracle mult jit db pid name).db = db := by
  simp [processPlayer, attemptLoop, h]

/-- C7: a fetch that succeeds with an empty result table terminates the
player's episode in a success state: the store is unchanged, no error-log or
skipped-log entry is appended, and the success flag (the player counts as
processed) is set. -/
theorem empty_result_success {α : Type} [DecidableEq α] [Inhabited α]
    (oracle : Nat → FetchOutcome α) (mult jit : Nat → ℚ) (db : DB α)
    (pid : Nat) (name : String)
    (h : oracle 0 = .ok []) :
    (processPlayer oracle mult jit db pid name).db = db ∧
    (processPlayer oracle mult jit db pid name).events.countP Event.isErrorLog = 0 ∧
    (processPlayer oracle mult jit db pid name).events.countP Event.isSkippedLog = 0 ∧
    (processPlayer oracle mult jit db pid name).success = true := by
  simp [processPlayer, attemptLoop, h, Event.isErrorLog, Event.isSkippedLog,
    List.countP_cons]

/-- helper for C8 -/
theorem attemptLoop_fetch_events {α : Type} [DecidableEq α] [Inhabited α]
    (oracle : Nat → FetchOutcome α) (mult jit : Nat → ℚ) (db : DB α)
    (pid : Nat) (name : String) :
    ∀ rem retries, ∃ k,
      ((attemptLoop oracle mult jit db pid name rem retries).events.filter Event.isFetch) =
        (List.range' retries k).map
          (fun n => Event.fetch pid n (INITIAL_TIMEOUT * BACKOFF_FACTOR ^ n * mult n)) := by
  intro rem
  induction rem with
  | zero => intro retries; exact ⟨0, by simp [attemptLoop]⟩
  | succ m ih =>
    intro retries
    match horacle : oracle retries with
    | .ok rows =>
      refine ⟨1, ?_⟩
      by_cases he : rows.isEmpty <;>
        simp [attemptLoop, horacle, he, Event.isFetch, List.range']
    | .transient =>
      by_cases hr : retries + 1 > MAX_RETRIES
      · exact ⟨1, by simp [attemptLoop, horacle, hr, Event.isFetch, List.range']⟩
      · obtain ⟨k, hk⟩ := ih (retries + 1)
        refine ⟨k + 1, ?_⟩
        simp [attemptLoop, horacle, hr, Event.isFetch, List.filter, hk, List.range']
    | .httpError =>
      exact ⟨1, by simp [attemptLoop, horacle, Event.isFetch, List.range']⟩
    | .otherError =>
      exact ⟨1, by simp [attemptLoop, horacle, Event.isFetch, List.range']⟩


/-- C8: the fetch attempts of a player's episode are numbered 0, 1, 2, ...,
and attempt n is issued with timeout INITIAL_TIMEOUT = 20 times
BACKOFF_FACTOR = 2 raised to the power n, times the random multiplier drawn
for that attempt (np.random.uniform(0.9, 1.1), modelled by the oracle
mult). -/
theorem timeout_formula {α : Type} [DecidableEq α] [Inhabited α]
    (oracle : Nat → FetchOutcome α) (mult jit : Nat → ℚ) (db : DB α)
    (pid : Nat) (name : String) :
    ∃ k, ((processPlayer oracle mult jit db pid name).events.filter Event.isFetch) =
      (List.range k).map
        (fun n => Event.fetch pid n ((20 : ℚ) * 2 ^ n * mult n)) := by
  obtain ⟨k, hk⟩ := attemptLoop_fetch_events oracle mult jit db pid name (MAX_RETRIES + 1) 0
  refine ⟨k, ?_⟩
  rw [List.range_eq_range']
  simpa [INITIAL_TIMEOUT, BACKOFF_FACTOR] using hk

/-- C1 witness: the always-transient oracle on an empty store. -/
theorem transient_exhaustion_single_logs_witness :
    (∀ n, n ≤ MAX_RETRIES → (fun _ => FetchOutcome.transient (α := Nat)) n = FetchOutcome.transient) ∧
    ((processPlayer (fun _ => FetchOutcome.transient (α := Nat)) (fun _ => 1) (fun _ => 1) [] 1 "A").db = [] ∧
     (processPlayer (fun _ => FetchOutcome.transient (α := Nat)) (fun _ => 1) (fun _ => 1) [] 1 "A").events.countP Event.isErrorLog = 1 ∧
     (processPlayer (fun _ => FetchOutcome.transient (α := Nat)) (fun _ => 1) (fun _ => 1) [] 1 "A").events.countP Event.isSkippedLog = 1) :=
  ⟨fun _ _ => rfl,
   transient_exhaustion_single_logs _ _ _ _ 1 "A" (fun _ _ => rfl)⟩

/-- C2 witness: an oracle raising an HTTP error on the first attempt. -/
theorem http_error_single_attempt_witness :
    ((fun _ => FetchOutcome.httpError (α := Nat)) 0 = FetchOutcome.httpError) ∧
    ((processPlayer (fun _ => FetchOutcome.httpError (α := Nat)) (fun _ => 1) (fun _ => 1) [] 2 "B").events =
      [Event.fetch 2 0 (INITIAL_TIMEOUT * BACKOFF_FACTOR ^ 0 * 1),
       Event.errorLog 2 "B" ErrKind.http,
       Event.skippedLog 2 "B"] ∧
     (processPlayer (fun _ => FetchOutcome.httpError (α := Nat)) (fun _ => 1) (fun _ => 1) [] 2 "B").db = []) :=
  ⟨rfl, http_error_single_attempt _ _ _ _ 2 "B" rfl⟩

/-- C7 witness: an oracle returning an empty table on the first attempt. -/
theorem empty_result_success_witness :
    ((fun _ => FetchOutcome.ok (α := Nat) []) 0 = FetchOutcome.ok []) ∧
    ((processPlayer (fun _ => FetchOutcome.ok (α := Nat) []) (fun _ => 1) (fun _ => 1) [] 3 "C").db = [] ∧
     (processPlayer (fun _ => FetchOutcome.ok (α := Nat) []) (fun _ => 1) (fun _ => 1) [] 3 "C").events.countP Event.isErrorLog = 0 ∧
     (processPlayer (fun _ => FetchOutcome.ok (α := Nat) []) (fun _ => 1) (fun _ => 1) [] 3 "C").events.countP Event.isSkippedLog = 0 ∧
     (processPlayer (fun _ => FetchOutcome.ok (α := Nat) []) (fun _ => 1) (fun _ => 1) [] 3 "C").success = true) :=
  ⟨rfl, empty_result_success _ _ _ _ 3 "C" rfl⟩


theorem save_player_data_nil {α : Type} [DecidableEq α] [Inhabited α]
    (db : DB α) (pid : Nat) (name : String) :
    save_player_data db pid name [] = db := rfl

theorem save_player_data_cons {α : Type} [DecidableEq α] [Inhabited α]
    (db : DB α) (pid : Nat) (name : String) (r : List α) (rows : List (List α)) :
    save_player_data db pid name (r :: rows) =
      save_player_data
        (if r.length = 27 then insertOrReplace db (rowToRecord pid name r) else db)
        pid name rows := rfl

theorem mem_insertOrReplace_of_ne {α : Type} [DecidableEq α] {db : DB α}
    {x r : StatRecord α} (hx : x ∈ db)
    (h : ¬(x.player_id = r.player_id ∧ x.season_id = r.season_id)) :
    x ∈ insertOrReplace db r := by
  rw [not_and_or] at h
  simp [insertOrReplace, List.mem_filter, hx]
  tauto

theorem save_mem_preserved {α : Type} [DecidableEq α] [Inhabited α]
    (pid : Nat) (name : String) :
    ∀ (rows : List (List α)) (db : DB α) (x : StatRecord α), x ∈ db →
      (∀ row ∈ rows, row.length = 27 →
        ¬(x.player_id = pid ∧ x.season_id = row.getD 1 default)) →
      x ∈ save_player_data db pid name rows := by
  intro rows
  induction rows with
  | nil => intro db x hx _; simpa [save_player_data] using hx
  | cons r rest ih =>
    intro db x hx hkey
    rw [save_player_data_cons]
    by_cases hlen : r.length = 27
    · simp only [hlen, if_true]
      refine ih _ x ?_ (fun row hrow h27 => hkey row (List.mem_cons_of_mem _ hrow) h27)
      exact mem_insertOrReplace_of_ne hx (hkey r (List.mem_cons_self _ _) hlen)
    · simp only [hlen, if_false]
      exact ih _ x hx (fun row hrow h27 => hkey row (List.mem_cons_of_mem _ hrow) h27)


theorem save_filter_eq {α : Type} [DecidableEq α] [Inhabited α]
    (pid : Nat) (name : String) :
    ∀ (rows : List (List α)) (db : DB α),
      save_player_data db pid name rows =
        save_player_data db pid name (rows.filter (fun r => r.length = 27)) := by
  intro rows
  induction rows with
  | nil => intro db; rfl
  | cons r rest ih =>
    intro db
    by_cases hlen : r.length = 27
    · rw [save_player_data_cons]
      have : (r :: rest).filter (fun r => r.length = 27) =
          r :: rest.filter (fun r => r.length = 27) := by
        simp [List.filter_cons, hlen]
      rw [this, save_player_data_cons]
      simp only [hlen, if_true]
      exact ih _
    · rw [save_player_data_cons]
      have : (r :: rest).filter (fun r => r.length = 27) =
          rest.filter (fun r => r.length = 27) := by
        simp [List.filter_cons, hlen]
      rw [this]
      simp only [hlen, if_false]
      exact ih _

theorem good_row_persisted {α : Type} [DecidableEq α] [Inhabited α]
    (pid : Nat) (name : String) :
    ∀ (rows : List (List α)) (db : DB α),
      ((rows.filter (fun r => r.length = 27)).map (fun r => r.getD 1 default)).Nodup →
      ∀ row ∈ rows, row.length = 27 →
        rowToRecord pid name row ∈ save_player_data db pid name rows := by
  intro rows
  induction rows with
  | nil => intro db _ row hrow; cases hrow
  | cons r rest ih =>
    intro db hnd row hrow hlen
    rw [save_player_data_cons]
    by_cases hr : r.length = 27
    · have hfc : (r :: rest).filter (fun r => r.length = 27) =
          r :: rest.filter (fun r => r.length = 27) := by
        simp [List.filter_cons, hr]
      rw [hfc, List.map_cons, List.nodup_cons] at hnd
      obtain ⟨hhead, htail⟩ := hnd
      simp only [hr, if_true]
      rcases List.mem_cons.mp hrow with heq | hmem
      · subst heq
        refine save_mem_preserved pid name rest _ _ (List.mem_cons_self _ _) ?_
        intro row' hrow' h27 hcontra
        apply hhead
        rw [List.mem_map]
        refine ⟨row', List.mem_filter.mpr ⟨hrow', by simp [h27]⟩, ?_⟩
        have : (rowToRecord pid name row).season_id = row.getD 1 default := rfl
        rw [this] at hcontra
        exact hcontra.2.symm
      · exact ih _ htail row hmem hlen
    · have hfc : (r :: rest).filter (fun r => r.length = 27) =
          rest.filter (fun r => r.length = 27) := by
        simp [List.filter_cons, hr]
      rw [hfc] at hnd
      simp only [hr, if_false]
      rcases List.mem_cons.mp hrow with heq | hmem
      · subst heq; exact absurd hlen hr
      · exact ih _ hnd row hmem hlen

/-- C5: a call to the persistence writer stores nothing from raw rows whose
positional width differs from 27 (the result equals the write of only the
width-27 rows), while every width-27 row of the batch (with distinct season
keys) is still present in the resulting store. -/
theorem width_check_drops_only_bad {α : Type} [DecidableEq α] [Inhabited α]
    (db : DB α) (pid : Nat) (name : String) (rows : List (List α))
    (hkeys : ((rows.filter (fun r => r.length = 27)).map
      (fun r => r.getD 1 default)).Nodup) :
    save_player_data db pid name rows =
      save_player_data db pid name (rows.filter (fun r => r.length = 27)) ∧
    ∀ row ∈ rows, row.length = 27 →
      rowToRecord pid name row ∈ save_player_data db pid name rows :=
  ⟨save_filter_eq pid name rows db, good_row_persisted pid name rows db hkeys⟩

/-- C5 witness: one width-27 row and one width-3 row. -/
theorem width_check_drops_only_bad_witness :
    ((([List.replicate 27 (4 : Nat), [1, 2, 3]].filter (fun r => r.length = 27)).map
      (fun r => r.getD 1 default)).Nodup) ∧
    (save_player_data ([] : DB Nat) 7 "Z" [List.replicate 27 4, [1, 2, 3]] =
      save_player_data ([] : DB Nat) 7 "Z"
        ([List.replicate 27 (4 : Nat), [1, 2, 3]].filter (fun r => r.length = 27)) ∧
     ∀ row ∈ [List.replicate 27 (4 : Nat), [1, 2, 3]], row.length = 27 →
       rowToRecord 7 "Z" row ∈ save_player_data ([] : DB Nat) 7 "Z" [List.replicate 27 4, [1, 2, 3]]) :=
  ⟨by decide, width_check_drops_only_bad [] 7 "Z" _ (by decide)⟩


theorem dbKeys_insertOrReplace_nodup {α : Type} [DecidableEq α]
    {db : DB α} (r : StatRecord α) (hnd : (dbKeys db).Nodup) :
    (dbKeys (insertOrReplace db r)).Nodup := by
  rw [insertOrReplace, dbKeys, List.map_cons, List.nodup_cons]
  constructor
  · intro hmem
    rw [List.mem_map] at hmem
    obtain ⟨s, hs, hkey⟩ := hmem
    rw [List.mem_filter] at hs
    have := hs.2
    simp only [Bool.not_eq_true', decide_eq_false_iff_not] at this
    exact this ⟨congrArg Prod.fst hkey, congrArg Prod.snd hkey⟩
  · exact List.Nodup.sublist (List.Sublist.map _ (List.filter_sublist _)) hnd

/-- C6: two writes sharing the (player_id, season_id) key upsert: the key
column stays duplicate-free, the second record is stored, every stored row
with that key is exactly the second record, and the first record is gone
whenever it differs from the second (last write wins). -/
theorem upsert_last_write_wins {α : Type} [DecidableEq α]
    (db : DB α) (r₁ r₂ : StatRecord α)
    (hnd : (dbKeys db).Nodup)
    (hk : r₁.player_id = r₂.player_id ∧ r₁.season_id = r₂.season_id) :
    (dbKeys (insertOrReplace (insertOrReplace db r₁) r₂)).Nodup ∧
    r₂ ∈ insertOrReplace (insertOrReplace db r₁) r₂ ∧
    (∀ s ∈ insertOrReplace (insertOrReplace db r₁) r₂,
      s.player_id = r₂.player_id → s.season_id = r₂.season_id → s = r₂) ∧
    (r₁ ≠ r₂ → r₁ ∉ insertOrReplace (insertOrReplace db r₁) r₂) := by
  have hall : ∀ s ∈ insertOrReplace (insertOrReplace db r₁) r₂,
      s.player_id = r₂.player_id → s.season_id = r₂.season_id → s = r₂ := by
    intro s hs hp hsea
    rcases List.mem_cons.mp hs with heq | hmem
    · exact heq
    · rw [List.mem_filter] at hmem
      have := hmem.2
      simp only [Bool.not_eq_true', decide_eq_false_iff_not] at this
      exact absurd ⟨hp, hsea⟩ this
  refine ⟨?_, List.mem_cons_self _ _, hall, ?_⟩
  · exact dbKeys_insertOrReplace_nodup _ (dbKeys_insertOrReplace_nodup _ hnd)
  · intro hne hmem
    exact hne (hall r₁ hmem hk.1 hk.2)

theorem save_eq_of_all_bad {α : Type} [DecidableEq α] [Inhabited α]
    (pid : Nat) (name : String) :
    ∀ (rows : List (List α)) (db : DB α), (∀ row ∈ rows, row.length ≠ 27) →
      save_player_data db pid name rows = db := by
  intro rows
  induction rows with
  | nil => intro db _; rfl
  | cons r rest ih =>
    intro db h
    rw [save_player_data_cons]
    simp only [h r (List.mem_cons_self _ _), if_false]
    exact ih db (fun row hrow => h row (List.mem_cons_of_mem _ hrow))

/-- C10: if every row passed to the persistence writer fails the width-27
check, the store is unchanged, and (the player not having been stored
before) the completion check for the player id still returns false. -/
theorem all_bad_rows_store_nothing {α : Type} [DecidableEq α] [Inhabited α]
    (db : DB α) (pid : Nat) (name : String) (rows : List (List α))
    (hbad : ∀ row ∈ rows, row.length ≠ 27)
    (hfresh : player_exists db pid = false) :
    save_player_data db pid name rows = db ∧
    player_exists (save_player_data db pid name rows) pid = false := by
  have h := save_eq_of_all_bad pid name rows db hbad
  exact ⟨h, by rw [h]; exact hfresh⟩

/-- C10 witness: two short rows against an empty store. -/
theorem all_bad_rows_store_nothing_witness :
    (∀ row ∈ [[1, 2, 3], ([] : List Nat)], row.length ≠ 27) ∧
    (player_exists ([] : DB Nat) 7 = false) ∧
    (save_player_data ([] : DB Nat) 7 "Z" [[1, 2, 3], []] = [] ∧
     player_exists (save_player_data ([] : DB Nat) 7 "Z" [[1, 2, 3], []]) 7 = false) :=
  ⟨by decide, by decide, all_bad_rows_store_nothing [] 7 "Z" _ (by decide) (by decide)⟩


/-- C6 witness: two records sharing a key, differing at the gp column. -/
theorem upsert_last_write_wins_witness :
    ((dbKeys ([] : DB Nat)).Nodup) ∧
    ((rowToRecord 1 "A" (List.replicate 27 (0 : Nat))).player_id =
        (rowToRecord 1 "A" ((List.replicate 27 (0 : Nat)).set 6 5)).player_id ∧
     (rowToRecord 1 "A" (List.replicate 27 (0 : Nat))).season_id =
        (rowToRecord 1 "A" ((List.replicate 27 (0 : Nat)).set 6 5)).season_id) ∧
    ((dbKeys (insertOrReplace (insertOrReplace ([] : DB Nat)
        (rowToRecord 1 "A" (List.replicate 27 0)))
        (rowToRecord 1 "A" ((List.replicate 27 0).set 6 5)))).Nodup ∧
     rowToRecord 1 "A" ((List.replicate 27 (0 : Nat)).set 6 5) ∈
        insertOrReplace (insertOrReplace ([] : DB Nat)
          (rowToRecord 1 "A" (List.replicate 27 0)))
          (rowToRecord 1 "A" ((List.replicate 27 0).set 6 5)) ∧
     (∀ s ∈ insertOrReplace (insertOrReplace ([] : DB Nat)
          (rowToRecord 1 "A" (List.replicate 27 0)))
          (rowToRecord 1 "A" ((List.replicate 27 0).set 6 5)),
        s.player_id = (rowToRecord 1 "A" ((List.replicate 27 (0 : Nat)).set 6 5)).player_id →
        s.season_id = (rowToRecord 1 "A" ((List.replicate 27 (0 : Nat)).set 6 5)).season_id →
        s = rowToRecord 1 "A" ((List.replicate 27 (0 : Nat)).set 6 5)) ∧
     (rowToRecord 1 "A" (List.replicate 27 (0 : Nat)) ≠
        rowToRecord 1 "A" ((List.replicate 27 (0 : Nat)).set 6 5) →
      rowToRecord 1 "A" (List.replicate 27 (0 : Nat)) ∉
        insertOrReplace (insertOrReplace ([] : DB Nat)
          (rowToRecord 1 "A" (List.replicate 27 0)))
          (rowToRecord 1 "A" ((List.replicate 27 0).set 6 5)))) :=
  ⟨by decide, by decide,
   upsert_last_write_wins [] _ _ (by decide) (by decide)⟩

theorem save_mem_cases {α : Type} [DecidableEq α] [Inhabited α]
    (pid : Nat) (name : String) :
    ∀ (rows : List (List α)) (db : DB α) (x : StatRecord α),
      x ∈ save_player_data db pid name rows →
      x ∈ db ∨ (x.player_id = pid ∧ x.player_name = name) := by
  intro rows
  induction rows with
  | nil => intro db x hx; exact Or.inl hx
  | cons r rest ih =>
    intro db x hx
    rw [save_player_data_cons] at hx
    by_cases hlen : r.length = 27
    · rw [if_pos hlen] at hx
      rcases ih _ x hx with hmem | hprop
      · rcases List.mem_cons.mp hmem with heq | hfil
        · exact Or.inr ⟨congrArg StatRecord.player_id heq,
            congrArg StatRecord.player_name heq⟩
        · exact Or.inl (List.mem_of_mem_filter hfil)
      · exact Or.inr hprop
    · rw [if_neg hlen] at hx
      exact ih _ x hx

/-- C9: every record added by the persistence writer carries the player_id
and player_name passed as arguments, and the positional mapping ignores
positions 0 and 2 of the raw row: two rows agreeing outside those positions
map to the same record. -/
theorem stored_identity_from_arguments {α : Type} [DecidableEq α] [Inhabited α]
    (db : DB α) (pid : Nat) (name : String) (rows : List (List α)) :
    (∀ rec ∈ save_player_data db pid name rows, rec ∉ db →
      rec.player_id = pid ∧ rec.player_name = name) ∧
    (∀ row₁ row₂ : List α,
      (∀ i, i ≠ 0 → i ≠ 2 → row₁.getD i default = row₂.getD i default) →
      rowToRecord pid name row₁ = rowToRecord pid name row₂) := by
  constructor
  · intro rec hrec hnot
    rcases save_mem_cases pid name rows db rec hrec with hmem | hprop
    · exact absurd hmem hnot
    · exact hprop
  · intro row₁ row₂ h
    simp only [rowToRecord, StatRecord.mk.injEq, true_and]
    and_intros <;> (apply h <;> decide)

/-- C9 witness: a concrete stored record and a position-0 overwrite. -/
theorem stored_identity_from_arguments_witness :
    (rowToRecord 7 "Z" (List.replicate 27 (4 : Nat)) ∈
      save_player_data ([] : DB Nat) 7 "Z" [List.replicate 27 4]) ∧
    (rowToRecord 7 "Z" (List.replicate 27 (4 : Nat)) ∉ ([] : DB Nat)) ∧
    ((rowToRecord 7 "Z" (List.replicate 27 (4 : Nat))).player_id = 7 ∧
     (rowToRecord 7 "Z" (List.replicate 27 (4 : Nat))).player_name = "Z") ∧
    rowToRecord 7 "Z" ((List.replicate 27 (4 : Nat)).set 0 9) =
      rowToRecord 7 "Z" (List.replicate 27 (4 : Nat)) :=
  ⟨by decide, by decide,
   (stored_identity_from_arguments ([] : DB Nat) 7 "Z" [List.replicate 27 4]).1
     _ (by decide) (by decide),
   (stored_identity_from_arguments ([] : DB Nat) 7 "Z" [List.replicate 27 4]).2
     _ _ (by
       intro i h0 h2
       rw [List.getD_eq_getElem?_getD, List.getD_eq_getElem?_getD,
         List.getElem?_set_ne (Ne.symm h0)])⟩


theorem attemptLoop_events_shape {α : Type} [DecidableEq α] [Inhabited α]
    (oracle : Nat → FetchOutcome α) (mult jit : Nat → ℚ) (db : DB α)
    (pid : Nat) (name : String) :
    ∀ rem retries ev,
      ev ∈ (attemptLoop oracle mult jit db pid name rem retries).events →
      (∃ n t, ev = Event.fetch pid n t) ∨ (∃ k, ev = Event.errorLog pid name k) ∨
      ev = Event.skippedLog pid name ∨ (∃ s, ev = Event.sleepBackoff s) := by
  intro rem
  induction rem with
  | zero => intro retries ev hev; simp [attemptLoop] at hev
  | succ m ih =>
    intro retries ev hev
    match horacle : oracle retries with
    | .ok rows =>
      rw [attemptLoop] at hev
      simp only [horacle] at hev
      by_cases he : rows.isEmpty <;> simp [he] at hev <;>
        exact Or.inl ⟨_, _, hev⟩
    | .transient =>
      rw [attemptLoop] at hev
      simp only [horacle] at hev
      by_cases hr : retries + 1 > MAX_RETRIES
      · simp [hr] at hev
        rcases hev with h | h | h
        · exact Or.inl ⟨_, _, h⟩
        · exact Or.inr (Or.inl ⟨_, h⟩)
        · exact Or.inr (Or.inr (Or.inl h))
      · simp [hr] at hev
        rcases hev with h | h | h
        · exact Or.inl ⟨_, _, h⟩
        · exact Or.inr (Or.inr (Or.inr ⟨_, h⟩))
        · exact ih _ ev h
    | .httpError =>
      rw [attemptLoop] at hev
      simp only [horacle] at hev
      simp at hev
      rcases hev with h | h | h
      · exact Or.inl ⟨_, _, h⟩
      · exact Or.inr (Or.inl ⟨_, h⟩)
      · exact Or.inr (Or.inr (Or.inl h))
    | .otherError =>
      rw [attemptLoop] at hev
      simp only [horacle] at hev
      simp at hev
      rcases hev with h | h | h
      · exact Or.inl ⟨_, _, h⟩
      · exact Or.inr (Or.inl ⟨_, h⟩)
      · exact Or.inr (Or.inr (Or.inl h))

theorem attemptLoop_db_cases {α : Type} [DecidableEq α] [Inhabited α]
    (oracle : Nat → FetchOutcome α) (mult jit : Nat → ℚ) (db : DB α)
    (pid : Nat) (name : String) :
    ∀ rem retries,
      (attemptLoop oracle mult jit db pid name rem retries).db = db ∨
      ∃ rows, (attemptLoop oracle mult jit db pid name rem retries).db =
        save_player_data db pid name rows := by
  intro rem
  induction rem with
  | zero => intro retries; exact Or.inl rfl
  | succ m ih =>
    intro retries
    rw [attemptLoop]
    match horacle : oracle retries with
    | .ok rows =>
      by_cases he : rows.isEmpty
      · simp only [he, if_true]
        left
        trivial
      · simp only [he, if_false]
        exact Or.inr ⟨rows, rfl⟩
    | .transient =>
      by_cases hr : retries + 1 > MAX_RETRIES
      · simp only [hr, if_true]
        left
        trivial
      · simp only [hr, if_false]
        exact ih (retries + 1)
    | .httpError => exact Or.inl rfl
    | .otherError => exact Or.inl rfl

theorem player_exists_iff {α : Type} (db : DB α) (q : Nat) :
    player_exists db q = true ↔ ∃ s ∈ db, s.player_id = q := by
  simp [player_exists, List.any_eq_true]

theorem player_exists_insertOrReplace_mono {α : Type} [DecidableEq α]
    {db : DB α} {q : Nat} (r : StatRecord α)
    (h : player_exists db q = true) :
    player_exists (insertOrReplace db r) q = true := by
  rw [player_exists_iff] at h ⊢
  obtain ⟨s, hs, hq⟩ := h
  by_cases hkey : s.player_id = r.player_id ∧ s.season_id = r.season_id
  · exact ⟨r, List.mem_cons_self _ _, hkey.1 ▸ hq⟩
  · exact ⟨s, mem_insertOrReplace_of_ne hs hkey, hq⟩

theorem player_exists_insertOrReplace_of_ne {α : Type} [DecidableEq α]
    {db : DB α} {q : Nat} {r : StatRecord α} (h : q ≠ r.player_id) :
    player_exists (insertOrReplace db r) q = player_exists db q := by
  rw [Bool.eq_iff_iff, player_exists_iff, player_exists_iff]
  constructor
  · rintro ⟨s, hs, hq⟩
    rcases List.mem_cons.mp hs with heq | hfil
    · exact absurd (heq ▸ hq).symm h
    · exact ⟨s, List.mem_of_mem_filter hfil, hq⟩
  · rintro ⟨s, hs, hq⟩
    refine ⟨s, mem_insertOrReplace_of_ne hs ?_, hq⟩
    intro hkey
    exact h (hq ▸ hkey.1)

theorem player_exists_save_mono {α : Type} [DecidableEq α] [Inhabited α]
    (pid : Nat) (name : String) {q : Nat} :
    ∀ (rows : List (List α)) (db : DB α), player_exists db q = true →
      player_exists (save_player_data db pid name rows) q = true := by
  intro rows
  induction rows with
  | nil => intro db h; exact h
  | cons r rest ih =>
    intro db h
    rw [save_player_data_cons]
    by_cases hlen : r.length = 27
    · rw [if_pos hlen]
      exact ih _ (player_exists_insertOrReplace_mono _ h)
    · rw [if_neg hlen]
      exact ih _ h

theorem player_exists_save_of_ne {α : Type} [DecidableEq α] [Inhabited α]
    (pid : Nat) (name : String) {q : Nat} (hq : q ≠ pid) :
    ∀ (rows : List (List α)) (db : DB α),
      player_exists (save_player_data db pid name rows) q = player_exists db q := by
  intro rows
  induction rows with
  | nil => intro db; rfl
  | cons r rest ih =>
    intro db
    rw [save_player_data_cons]
    by_cases hlen : r.length = 27
    · rw [if_pos hlen, ih, player_exists_insertOrReplace_of_ne hq]
    · rw [if_neg hlen, ih]

theorem player_exists_processPlayer_mono {α : Type} [DecidableEq α] [Inhabited α]
    (oracle : Nat → FetchOutcome α) (mult jit : Nat → ℚ) (db : DB α)
    (pid : Nat) (name : String) {q : Nat}
    (h : player_exists db q = true) :
    player_exists (processPlayer oracle mult jit db pid name).db q = true := by
  rcases attemptLoop_db_cases oracle mult jit db pid name (MAX_RETRIES + 1) 0 with
    hdb | ⟨rows, hdb⟩
  · rw [processPlayer, hdb]; exact h
  · rw [processPlayer, hdb]; exact player_exists_save_mono pid name rows db h

theorem player_exists_processPlayer_of_ne {α : Type} [DecidableEq α] [Inhabited α]
    (oracle : Nat → FetchOutcome α) (mult jit : Nat → ℚ) (db : DB α)
    (pid : Nat) (name : String) {q : Nat} (hq : q ≠ pid) :
    player_exists (processPlayer oracle mult jit db pid name).db q =
      player_exists db q := by
  rcases attemptLoop_db_cases oracle mult jit db pid name (MAX_RETRIES + 1) 0 with
    hdb | ⟨rows, hdb⟩
  · rw [processPlayer, hdb]
  · rw [processPlayer, hdb, player_exists_save_of_ne pid name hq]


theorem collect_no_fetch_of_stored {α : Type} [DecidableEq α] [Inhabited α]
    (oracle : Nat → Nat → FetchOutcome α) (mult jit : Nat → Nat → ℚ) :
    ∀ (roster : List Player) (idx : Nat) (db : DB α) (q : Nat),
      player_exists db q = true →
      ∀ ev ∈ ((collect_all_stats oracle mult jit idx db roster).2).flatten,
        Event.isFetchFor q ev = false := by
  intro roster
  induction roster with
  | nil => intro idx db q _ ev hev; simp [collect_all_stats] at hev
  | cons p rest ih =>
    intro idx db q hq ev hev
    rw [collect_all_stats] at hev
    by_cases hp : player_exists db p.id
    · simp only [hp, if_true, List.flatten_cons, List.nil_append] at hev
      exact ih (idx + 1) db q hq ev hev
    · simp only [hp, Bool.false_eq_true, if_false, List.flatten_cons,
        List.mem_append] at hev
      have hpq : p.id ≠ q := by
        intro hcontra
        rw [hcontra] at hp
        exact hp hq
      rcases hev with ((hevs | hjit) | hcool) | hrest
      · rcases attemptLoop_events_shape (oracle idx) (mult idx) (jit idx) db
              p.id p.full_name (MAX_RETRIES + 1) 0 ev hevs with
            ⟨n, t, rfl⟩ | ⟨k, rfl⟩ | rfl | ⟨s, rfl⟩
        · simpa [Event.isFetchFor] using hpq
        · rfl
        · rfl
        · rfl
      · rw [List.mem_singleton.mp hjit]; rfl
      · revert hcool
        by_cases hb : (idx + 1) % BATCH_SIZE = 0 <;> intro hcool
        · rw [if_pos hb] at hcool
          rw [List.mem_singleton.mp hcool]; rfl
        · rw [if_neg hb] at hcool
          cases hcool
      · refine ih (idx + 1) _ q ?_ ev hrest
        exact player_exists_processPlayer_mono _ _ _ _ _ _ hq

/-- C4: if at least one stat row is persisted for a player's id at the start
of that player's iteration, then no fetch event for that id occurs anywhere
in the remainder of the run (resumability). -/
theorem stored_player_never_fetched {α : Type} [DecidableEq α] [Inhabited α]
    (oracle : Nat → Nat → FetchOutcome α) (mult jit : Nat → Nat → ℚ)
    (p : Player) (rest : List Player) (idx : Nat) (db : DB α)
    (h : player_exists db p.id = true) :
    ∀ ev ∈ ((collect_all_stats oracle mult jit idx db (p :: rest)).2).flatten,
      Event.isFetchFor p.id ev = false :=
  collect_no_fetch_of_stored oracle mult jit (p :: rest) idx db p.id h

/-- C4 witness: player 1 already stored; only player 2 may be fetched. -/
theorem stored_player_never_fetched_witness :
    (player_exists [rowToRecord 1 "A" (List.replicate 27 (0 : Nat))] 1 = true) ∧
    (∀ ev ∈ ((collect_all_stats (fun _ _ => FetchOutcome.ok (α := Nat) [])
        (fun _ _ => 1) (fun _ _ => 1) 0
        [rowToRecord 1 "A" (List.replicate 27 0)]
        [⟨1, "A"⟩, ⟨2, "B"⟩]).2).flatten,
      Event.isFetchFor 1 ev = false) :=
  ⟨by decide,
   stored_player_never_fetched (fun _ _ => FetchOutcome.ok [])
     (fun _ _ => 1) (fun _ _ => 1) ⟨1, "A"⟩ [⟨2, "B"⟩] 0
     [rowToRecord 1 "A" (List.replicate 27 0)] (by decide)⟩


theorem processPlayer_countCooldown {α : Type} [DecidableEq α] [Inhabited α]
    (oracle : Nat → FetchOutcome α) (mult jit : Nat → ℚ) (db : DB α)
    (pid : Nat) (name : String) :
    countCooldown (processPlayer oracle mult jit db pid name).events = 0 := by
  rw [countCooldown, List.countP_eq_zero]
  intro ev hev
  rcases attemptLoop_events_shape oracle mult jit db pid name (MAX_RETRIES + 1) 0
    ev hev with ⟨n, t, rfl⟩ | ⟨k, rfl⟩ | rfl | ⟨s, rfl⟩ <;>
    simp [Event.isCooldown]

theorem collect_chunks_spec {α : Type} [DecidableEq α] [Inhabited α]
    (oracle : Nat → Nat → FetchOutcome α) (mult jit : Nat → Nat → ℚ) :
    ∀ (roster : List Player) (idx : Nat) (db : DB α),
      (roster.map Player.id).Nodup →
      (∀ p ∈ roster, player_exists db p.id = false) →
      ((collect_all_stats oracle mult jit idx db roster).2).length = roster.length ∧
      ∀ i, i < roster.length →
        if (idx + i + 1) % BATCH_SIZE = 0 then
          countCooldown (((collect_all_stats oracle mult jit idx db roster).2).getD i []) = 1 ∧
          (((collect_all_stats oracle mult jit idx db roster).2).getD i []).getLast? =
            some (Event.cooldown COOLDOWN_TIME)
        else
          countCooldown (((collect_all_stats oracle mult jit idx db roster).2).getD i []) = 0 := by
  intro roster
  induction roster with
  | nil =>
    intro idx db _ _
    exact ⟨rfl, fun i hi => absurd hi (Nat.not_lt_zero i)⟩
  | cons p rest ih =>
    intro idx db hnd hfresh
    have hp : player_exists db p.id = false := hfresh p (List.mem_cons_self _ _)
    rw [List.map_cons, List.nodup_cons] at hnd
    have hrest : ∀ q ∈ rest, player_exists
        (processPlayer (oracle idx) (mult idx) (jit idx) db p.id p.full_name).db q.id
          = false := by
      intro q hq
      have hne : q.id ≠ p.id := by
        intro hcontra
        exact hnd.1 (hcontra ▸ List.mem_map_of_mem Player.id hq)
      rw [player_exists_processPlayer_of_ne _ _ _ _ _ _ hne]
      exact hfresh q (List.mem_cons_of_mem _ hq)
    obtain ⟨ihlen, ihspec⟩ := ih (idx + 1)
      (processPlayer (oracle idx) (mult idx) (jit idx) db p.id p.full_name).db
      hnd.2 hrest
    rw [collect_all_stats]
    simp only [hp, Bool.false_eq_true, if_false]
    constructor
    · simpa using ihlen
    · intro i hi
      match i with
      | 0 =>
        simp only [List.getD_cons_zero, Nat.add_zero]
        have h0 := processPlayer_countCooldown (oracle idx) (mult idx) (jit idx)
          db p.id p.full_name
        rw [countCooldown] at h0
        by_cases hb : (idx + 1) % BATCH_SIZE = 0
        · rw [if_pos hb, if_pos hb]
          constructor
          · rw [countCooldown, List.countP_append, List.countP_append, h0]
            decide
          · exact List.getLast?_concat _
        · rw [if_neg hb, if_neg hb]
          rw [countCooldown, List.countP_append, List.countP_append, h0]
          decide
      | Nat.succ j =>
        have hj : j < rest.length := by
          simpa [Nat.succ_lt_succ_iff] using hi
        have := ihspec j hj
        simp only [List.getD_cons_succ]
        have harith : idx + (j + 1) + 1 = idx + 1 + j + 1 := by omega
        rw [harith]
        exact this


set_option maxRecDepth 10000 in
/-- C3: with 501 fresh players (distinct ids, none already stored), the run
performs exactly one cooldown pause of COOLDOWN_TIME seconds: the whole
trace has exactly one cooldown event, it occurs as the last event of
iteration 500 (index 499, immediately after the 500th player), and no other
iteration's chunk has a cooldown, regardless of the per-player fetch
outcomes. -/
theorem one_cooldown_per_batch {α : Type} [DecidableEq α] [Inhabited α]
    (oracle : Nat → Nat → FetchOutcome α) (mult jit : Nat → Nat → ℚ)
    (roster : List Player) (db : DB α)
    (hnd : (roster.map Player.id).Nodup)
    (hfresh : ∀ p ∈ roster, player_exists db p.id = false)
    (hlen : roster.length = 501) :
    countCooldown (((collect_all_stats oracle mult jit 0 db roster).2).flatten) = 1 ∧
    ∀ i, i < 501 →
      (i = 499 →
        countCooldown (((collect_all_stats oracle mult jit 0 db roster).2).getD i []) = 1 ∧
        (((collect_all_stats oracle mult jit 0 db roster).2).getD i []).getLast? =
          some (Event.cooldown COOLDOWN_TIME)) ∧
      (i ≠ 499 →
        countCooldown (((collect_all_stats oracle mult jit 0 db roster).2).getD i []) = 0) := by
  obtain ⟨hl, hspec⟩ := collect_chunks_spec oracle mult jit roster 0 db hnd hfresh
  have hl501 : ((collect_all_stats oracle mult jit 0 db roster).2).length = 501 := by
    rw [hl, hlen]
  have hspec' : ∀ i, i < 501 →
      if (i + 1) % 500 = 0 then
        countCooldown (((collect_all_stats oracle mult jit 0 db roster).2).getD i []) = 1 ∧
        (((collect_all_stats oracle mult jit 0 db roster).2).getD i []).getLast? =
          some (Event.cooldown COOLDOWN_TIME)
      else
        countCooldown (((collect_all_stats oracle mult jit 0 db roster).2).getD i []) = 0 := by
    intro i hi
    have := hspec i (by omega)
    simpa [BATCH_SIZE] using this
  constructor
  · have hmap : ((collect_all_stats oracle mult jit 0 db roster).2).map countCooldown =
        (List.range 501).map (fun i => if (i + 1) % 500 = 0 then 1 else 0) := by
      apply List.ext_getElem
      · simp [hl501]
      · intro n h₁ h₂
        simp only [List.getElem_map, List.getElem_range]
        have hn : n < 501 := by simpa [hl501] using h₁
        have hgetd : ((collect_all_stats oracle mult jit 0 db roster).2).getD n [] =
            ((collect_all_stats oracle mult jit 0 db roster).2)[n] := by
          rw [List.getD_eq_getElem]
        have := hspec' n hn
        rw [hgetd] at this
        by_cases hb : (n + 1) % 500 = 0
        · rw [if_pos hb] at this ⊢
          exact this.1
        · rw [if_neg hb] at this ⊢
          exact this
    rw [countCooldown, List.countP_flatten,
      show List.map (List.countP Event.isCooldown)
          ((collect_all_stats oracle mult jit 0 db roster).2) =
        ((collect_all_stats oracle mult jit 0 db roster).2).map countCooldown from rfl,
      hmap]
    decide
  · intro i hi
    have := hspec' i hi
    constructor
    · intro h499
      subst h499
      rw [if_pos (by norm_num)] at this
      exact this
    · intro hne
      rw [if_neg (by omega)] at this
      exact this


set_option maxRecDepth 10000 in
/-- C3 witness: 501 fresh players against an empty store. -/
theorem one_cooldown_per_batch_witness :
    ((((List.range 501).map (fun i => Player.mk i "")).map Player.id).Nodup) ∧
    (∀ p ∈ (List.range 501).map (fun i => Player.mk i ""),
      player_exists ([] : DB Nat) p.id = false) ∧
    (((List.range 501).map (fun i => Player.mk i "")).length = 501) ∧
    (countCooldown (((collect_all_stats (fun _ _ => FetchOutcome.ok (α := Nat) [])
        (fun _ _ => 1) (fun _ _ => 1) 0 []
        ((List.range 501).map (fun i => Player.mk i ""))).2).flatten) = 1 ∧
     ∀ i, i < 501 →
      (i = 499 →
        countCooldown (((collect_all_stats (fun _ _ => FetchOutcome.ok (α := Nat) [])
          (fun _ _ => 1) (fun _ _ => 1) 0 []
          ((List.range 501).map (fun i => Player.mk i ""))).2).getD i []) = 1 ∧
        (((collect_all_stats (fun _ _ => FetchOutcome.ok (α := Nat) [])
          (fun _ _ => 1) (fun _ _ => 1) 0 []
          ((List.range 501).map (fun i => Player.mk i ""))).2).getD i []).getLast? =
          some (Event.cooldown COOLDOWN_TIME)) ∧
      (i ≠ 499 →
        countCooldown (((collect_all_stats (fun _ _ => FetchOutcome.ok (α := Nat) [])
          (fun _ _ => 1) (fun _ _ => 1) 0 []
          ((List.range 501).map (fun i => Player.mk i ""))).2).getD i []) = 0)) :=
  ⟨by
    rw [List.map_map, show (Player.id ∘ fun i : Nat => Player.mk i "") = id from rfl,
      List.map_id]
    exact List.nodup_range _,
   fun p _ => rfl,
   by simp,
   one_cooldown_per_batch (fun _ _ => FetchOutcome.ok []) (fun _ _ => 1) (fun _ _ => 1)
     ((List.range 501).map (fun i => Player.mk i "")) []
     (by
       rw [List.map_map, show (Player.id ∘ fun i : Nat => Player.mk i "") = id from rfl,
         List.map_id]
       exact List.nodup_range _)
     (fun p _ => rfl)
     (by simp)⟩

end GetData
